import Mathlib

/-!
Shallow embedding of `src/src/main.rs`, a four-route actix-web HTTP service.

The repository code consists of the handlers `get_json_data`, `post_json`,
`get_user`, the inline handler for `GET /`, and the route table in `main`.
The serde/actix decoding and serialization layers are framework code not
present in the repository; they are modelled here from the spec (decoding a
path segment as an unsigned 32-bit integer, decoding a JSON body into the
`Info` shape, serializing values to compact JSON text).
-/

namespace RustForNode

/-- JSON values as seen by the serde layer (arrays omitted: no route of this
service produces one, and a non-object body is already representable). -/
inductive Json where
  | null
  | bool (b : Bool)
  | num (n : Int)
  | str (s : String)
  | obj (fields : List (String × Json))

/-- Lowercase hexadecimal digit, as serde_json writes in a control escape. -/
def hexDigitChar (d : Nat) : Char :=
  if d < 10 then Char.ofNat (48 + d) else Char.ofNat (87 + d)

/-- Modelled from the spec: serde_json's escaping of one character inside a
JSON string: a double quote and a backslash get a backslash escape, control
characters below 0x20 get a short escape or a \u00XX escape, every other
character is emitted as itself. -/
def jsonEscapeChar (c : Char) : List Char :=
  if c = '"' then ['\\', '"']
  else if c = '\\' then ['\\', '\\']
  else if c = Char.ofNat 8 then ['\\', 'b']
  else if c = Char.ofNat 9 then ['\\', 't']
  else if c = Char.ofNat 10 then ['\\', 'n']
  else if c = Char.ofNat 12 then ['\\', 'f']
  else if c = Char.ofNat 13 then ['\\', 'r']
  else if c.toNat < 32 then
    ['\\', 'u', '0', '0', hexDigitChar (c.toNat / 16), hexDigitChar (c.toNat % 16)]
  else [c]

/-- Characters that serde_json does not emit verbatim inside a JSON string. -/
def needsJsonEscape (c : Char) : Bool :=
  c = '"' || c = '\\' || c.toNat < 32

/-- Escape every character of a string body. -/
def jsonEscape : List Char → List Char
  | [] => []
  | c :: rest => jsonEscapeChar c ++ jsonEscape rest

/-- Render a JSON string: its escaped characters between double quotes. -/
def renderJsonString (s : String) : String :=
  String.mk ('"' :: (jsonEscape s.data ++ ['"']))

mutual

/-- Modelled from the spec: compact serialization to JSON text, as
`serde_json` produces for `HttpResponse::json` (no spaces, fields in
declaration order). -/
def Json.render : Json → String
  | .null => "null"
  | .bool b => cond b "true" "false"
  | .num n => toString n
  | .str s => renderJsonString s
  | .obj fs => "\x7b" ++ Json.renderFields fs ++ "\x7d"

/-- Comma-separated `"key":value` pairs of a JSON object body. -/
def Json.renderFields : List (String × Json) → String
  | [] => ""
  | [(k, v)] => renderJsonString k ++ ":" ++ Json.render v
  | (k, v) :: f :: rest =>
    renderJsonString k ++ ":" ++ Json.render v ++ "," ++ Json.renderFields (f :: rest)

end

/-- The `Info` record of `main.rs`: the decoded shape of a `POST /users` body. -/
structure Info where
  name : String
deriving DecidableEq

/-- The `Person` record of `main.rs`: both fields are text, including `age`. -/
structure Person where
  name : String
  age : String
deriving DecidableEq

/-- Serde's derived `Serialize` for `Person`: a JSON object with the fields in
declaration order, both serialized as JSON strings. -/
def Person.toJson (p : Person) : Json :=
  .obj [("name", .str p.name), ("age", .str p.age)]

/-- ASCII digit with value `d` (for `d < 10`). -/
def digitChar (d : Nat) : Char := Char.ofNat (48 + d)

/-- Digits of `n` in base 10, most significant first; fuel-structured so the
kernel can evaluate it (any `fuel > n` suffices). -/
def decimalDigitsAux : Nat → Nat → List Char
  | 0, _ => []
  | fuel + 1, n =>
    if n < 10 then [digitChar n]
    else decimalDigitsAux fuel (n / 10) ++ [digitChar (n % 10)]

/-- Decimal digits of `n`, most significant first; `["0"]` for zero. -/
def decimalDigits (n : Nat) : List Char := decimalDigitsAux (n + 1) n

/-- The decimal numeral for `n`, as Rust's `Display` for unsigned integers
prints it in `format!("User ID is \x7b\x7d", user_id.0)`. -/
def decimalNumeral (n : Nat) : String := String.mk (decimalDigits n)

/-- ASCII decimal digit test, as Rust's unsigned-integer parsing uses. -/
def isAsciiDigit (c : Char) : Bool := 48 ≤ c.toNat && c.toNat ≤ 57

/-- Value of a digit list read in base 10, most significant first. -/
def digitsToNat (l : List Char) : Nat :=
  l.foldl (fun acc c => acc * 10 + (c.toNat - 48)) 0

/-- A path segment consisting of at least one ASCII digit and nothing else:
the shape the decoding layer accepts for `id`. -/
def isNumericSegment (s : String) : Bool :=
  !s.data.isEmpty && s.data.all isAsciiDigit

/-- Modelled from the spec: the framework's decoding of the `id` path segment
for `web::Path<(u32,)>` — the segment is parsed as an unsigned integer and
must fit in 32 bits (width from the `u32` in `get_user`); any other segment
is rejected before the handler runs. -/
def parseU32 (s : String) : Option Nat :=
  if isNumericSegment s then
    if digitsToNat s.data < 4294967296 then some (digitsToNat s.data) else none
  else none

/-- Value of the field `"name"` in a decoded JSON object, erroring on a
duplicate key as serde's derived `Deserialize` does. -/
def lookupName : List (String × Json) → Option Json
  | [] => none
  | (k, v) :: rest =>
    if k = "name" then
      if rest.any (fun kv => kv.1 = "name") then none else some v
    else lookupName rest

/-- The body of an incoming request, as the decoding layer sees it: either a
well-formed JSON document or anything else (malformed, empty, not JSON). -/
inductive Body where
  | json (j : Json)
  | notJson

/-- Modelled from the spec: the framework's decoding of a `POST /users` body
into `web::Json<Info>` — the body must be a JSON object whose `"name"` field
is a string (other fields are ignored); otherwise the request is rejected
before the handler runs. -/
def decodeInfo : Body → Option Info
  | .json (.obj fs) =>
    match lookupName fs with
    | some (.str s) => some ⟨s⟩
    | _ => none
  | _ => none

/-- HTTP method; the route table only distinguishes GET and POST. -/
inductive Method where
  | get
  | post
deriving DecidableEq

/-- An incoming HTTP request: method, path split into segments (`/` is `[]`,
`/users/7` is `["users", "7"]`), the raw query string, the headers, and the
body as the decoding layer sees it. -/
structure Request where
  method : Method
  path : List String
  query : String
  headers : List (String × String)
  body : Body

/-- An HTTP response: status code and body text. -/
structure Response where
  status : Nat
  body : String
deriving DecidableEq

/-- Handler of `GET /users` in `main.rs`: serializes a fresh `Person` with the
two hardcoded literals. -/
def get_json_data : Response :=
  ⟨200, (Person.toJson ⟨"Good!", "21"⟩).render⟩

/-- Handler of `POST /users` in `main.rs`: echoes the decoded name inside a
JSON-serialized string. -/
def post_json (info : Info) : Response :=
  ⟨200, (Json.str ("Received name: " ++ info.name)).render⟩

/-- Handler of `GET /users/{id}` in `main.rs`: plain-text echo of the decoded
id. -/
def get_user (user_id : Nat) : Response :=
  ⟨200, "User ID is " ++ decimalNumeral user_id⟩

/-- Response of the inline `GET /` handler in `main`. -/
def helloResponse : Response := ⟨200, "Hello World!"⟩

/-- Modelled from the spec: the framework's client-error response when the
`id` path segment fails to decode (actix answers 404 for a path-extraction
failure; the body is framework text no claim depends on). -/
def pathErrorResponse : Response := ⟨404, ""⟩

/-- Modelled from the spec: the framework's client-error response when a JSON
body fails to decode (400 Bad Request; body text not modelled). -/
def jsonErrorResponse : Response := ⟨400, ""⟩

/-- Modelled from the spec: the framework's response when no route matches. -/
def noRouteResponse : Response := ⟨404, ""⟩

/-- The route table of `main` applied to one request: match method and path
against the four registered routes, decode the typed inputs, and run the
matched handler; headers and query string never influence dispatch. -/
def handle (r : Request) : Response :=
  match r.method, r.path with
  | .get, [] => helloResponse
  | .get, ["users"] => get_json_data
  | .get, ["users", seg] =>
    match parseU32 seg with
    | some n => get_user n
    | none => pathErrorResponse
  | .post, ["users"] =>
    match decodeInfo r.body with
    | some info => post_json info
    | none => jsonErrorResponse
  | _, _ => noRouteResponse

/-- The service keeps no state across requests: its state type is trivial. -/
def ServerState := Unit

/-- One request handled: the response depends only on the request, and the
state is returned unchanged (there is nothing to mutate). -/
def serverStep (s : ServerState) (r : Request) : ServerState × Response :=
  (s, handle r)

/-- Handle a sequence of requests in order, threading the server state. -/
def runServer : ServerState → List Request → List Response
  | _, [] => []
  | s, r :: rs =>
    let p := serverStep s r
    p.2 :: runServer p.1 rs

/-- A route together with its decoded input: the four routes of the table,
with no input for `GET /` and `GET /users`, the decoded id for
`GET /users/{id}`, and the decoded name for `POST /users`. -/
inductive RouteInput where
  | root
  | usersList
  | userById (id : Nat)
  | createUser (name : String)

/-- The route a request matches and the input the decoding layer extracts for
it, when both succeed: the request's decoded input in the claims' sense. -/
def decodedRoute (r : Request) : Option RouteInput :=
  match r.method, r.path with
  | .get, [] => some .root
  | .get, ["users"] => some .usersList
  | .get, ["users", seg] =>
    match parseU32 seg with
    | some n => some (.userById n)
    | none => none
  | .post, ["users"] =>
    match decodeInfo r.body with
    | some i => some (.createUser i.name)
    | none => none
  | _, _ => none

/-- The response each route's handler computes from the decoded input. -/
def routeResponse : RouteInput → Response
  | .root => helloResponse
  | .usersList => get_json_data
  | .userById n => get_user n
  | .createUser s => post_json ⟨s⟩

/-! Facts about decimal numerals and the path-segment parser. -/

theorem digitChar_toNat {d : Nat} (h : d < 10) : (digitChar d).toNat = 48 + d := by
  interval_cases d <;> rfl

theorem isAsciiDigit_digitChar {d : Nat} (h : d < 10) : isAsciiDigit (digitChar d) = true := by
  interval_cases d <;> rfl

theorem decimalDigitsAux_ne_nil :
    ∀ fuel n, n < fuel → decimalDigitsAux fuel n ≠ [] := by
  intro fuel
  induction fuel with
  | zero => intro n h; omega
  | succ fuel ih =>
    intro n _
    unfold decimalDigitsAux
    split
    · simp
    · simp

theorem decimalDigitsAux_all :
    ∀ fuel n, n < fuel → (decimalDigitsAux fuel n).all isAsciiDigit = true := by
  intro fuel
  induction fuel with
  | zero => intro n h; omega
  | succ fuel ih =>
    intro n hn
    unfold decimalDigitsAux
    split
    · next h10 => simp [isAsciiDigit_digitChar h10]
    · next h10 =>
      rw [List.all_append]
      have hdiv : n / 10 < fuel := by omega
      simp [ih (n / 10) hdiv, isAsciiDigit_digitChar (Nat.mod_lt n (by omega) : n % 10 < 10)]

theorem digitsToNat_append_digit (l : List Char) (c : Char) :
    digitsToNat (l ++ [c]) = digitsToNat l * 10 + (c.toNat - 48) := by
  simp [digitsToNat, List.foldl_append]

theorem digitsToNat_decimalDigitsAux :
    ∀ fuel n, n < fuel → digitsToNat (decimalDigitsAux fuel n) = n := by
  intro fuel
  induction fuel with
  | zero => intro n h; omega
  | succ fuel ih =>
    intro n hn
    unfold decimalDigitsAux
    split
    · next h10 =>
      simp [digitsToNat, digitChar_toNat h10]
    · next h10 =>
      rw [digitsToNat_append_digit]
      have hdiv : n / 10 < fuel := by omega
      rw [ih (n / 10) hdiv, digitChar_toNat (Nat.mod_lt n (by omega) : n % 10 < 10)]
      omega

theorem isNumericSegment_decimalNumeral (n : Nat) :
    isNumericSegment (decimalNumeral n) = true := by
  have h1 := decimalDigitsAux_ne_nil (n + 1) n (by omega)
  have h2 := decimalDigitsAux_all (n + 1) n (by omega)
  simp only [isNumericSegment, decimalNumeral, decimalDigits]
  rw [Bool.and_eq_true]
  constructor
  · simpa [List.isEmpty_iff] using h1
  · exact h2

theorem digitsToNat_decimalNumeral (n : Nat) :
    digitsToNat (decimalNumeral n).data = n :=
  digitsToNat_decimalDigitsAux (n + 1) n (by omega)

theorem parseU32_decimalNumeral {n : Nat} (h : n < 4294967296) :
    parseU32 (decimalNumeral n) = some n := by
  rw [parseU32, if_pos (isNumericSegment_decimalNumeral n), digitsToNat_decimalNumeral,
    if_pos h]

theorem parseU32_decimalNumeral_overflow {n : Nat} (h : 4294967296 ≤ n) :
    parseU32 (decimalNumeral n) = none := by
  rw [parseU32, if_pos (isNumericSegment_decimalNumeral n), digitsToNat_decimalNumeral,
    if_neg (by omega)]

theorem parseU32_lt {s : String} {n : Nat} (h : parseU32 s = some n) : n < 4294967296 := by
  rw [parseU32] at h
  split at h
  · split at h
    · next hlt => cases h; exact hlt
    · cases h
  · cases h

theorem parseU32_not_numeric {s : String} (h : isNumericSegment s = false) :
    parseU32 s = none := by
  rw [parseU32, if_neg (by simp [h])]

/-! Facts about JSON string escaping. -/

theorem jsonEscapeChar_of_clean {c : Char} (h : needsJsonEscape c = false) :
    jsonEscapeChar c = [c] := by
  simp only [needsJsonEscape, Bool.or_eq_false_iff, decide_eq_false_iff_not] at h
  obtain ⟨⟨hq, hb⟩, hc⟩ := h
  have h8 : c ≠ Char.ofNat 8 := by rintro rfl; exact hc (by decide)
  have h9 : c ≠ Char.ofNat 9 := by rintro rfl; exact hc (by decide)
  have h10 : c ≠ Char.ofNat 10 := by rintro rfl; exact hc (by decide)
  have h12 : c ≠ Char.ofNat 12 := by rintro rfl; exact hc (by decide)
  have h13 : c ≠ Char.ofNat 13 := by rintro rfl; exact hc (by decide)
  rw [jsonEscapeChar, if_neg hq, if_neg hb, if_neg h8, if_neg h9, if_neg h10, if_neg h12,
    if_neg h13, if_neg hc]

theorem jsonEscape_append (l m : List Char) :
    jsonEscape (l ++ m) = jsonEscape l ++ jsonEscape m := by
  induction l with
  | nil => rfl
  | cons c rest ih => simp [jsonEscape, ih]

theorem jsonEscape_of_clean {l : List Char} (h : ∀ c ∈ l, needsJsonEscape c = false) :
    jsonEscape l = l := by
  induction l with
  | nil => rfl
  | cons c rest ih =>
    rw [jsonEscape, jsonEscapeChar_of_clean (h c (by simp)),
      ih (fun d hd => h d (by simp [hd]))]
    rfl

theorem renderJsonString_of_clean {s : String} (h : ∀ c ∈ s.data, needsJsonEscape c = false) :
    renderJsonString s = "\"" ++ s ++ "\"" := by
  apply String.ext
  rw [renderJsonString, String.data_append, String.data_append]
  show '"' :: (jsonEscape s.data ++ ['"']) = ['"'] ++ s.data ++ ['"']
  rw [jsonEscape_of_clean h]
  simp

/-! Claim theorems. -/

/-- C4: every GET request to `/` is answered with status 200 and body exactly
`Hello World!`, whatever the query string, headers, and body. -/
theorem c4_root_hello_world (q : String) (hs : List (String × String)) (b : Body) :
    handle ⟨.get, [], q, hs, b⟩ = ⟨200, "Hello World!"⟩ := rfl

/-- C3: every GET request to `/users` is answered with status 200 and body
exactly the JSON object with string fields name `Good!` and age `21`; since
the response is the same for all queries, headers, and bodies, it is
identical across repeated calls. -/
theorem c3_get_users_fixed_json (q : String) (hs : List (String × String)) (b : Body) :
    handle ⟨.get, ["users"], q, hs, b⟩ =
      ⟨200, "\x7b\"name\":\"Good!\",\"age\":\"21\"\x7d"⟩ := by
  have h : handle ⟨.get, ["users"], q, hs, b⟩ = get_json_data := rfl
  rw [h, get_json_data, Person.toJson]
  simp only [Json.render, Json.renderFields]
  decide

/-- C1 (counterexample): the claim quantifies over every unsigned integer,
but at `n = 4294967296 = 2^32` the decoded `u32` overflows and the response
status is not 200. -/
theorem c1_unbounded_counterexample :
    (handle ⟨.get, ["users", decimalNumeral 4294967296], "", [], .notJson⟩).status ≠ 200 := by
  decide

/-- C1 (amended): for every unsigned integer `n` that fits in 32 bits, a GET
request to `/users/{n}` with the decimal numeral of `n` as the path segment
returns status 200 with plain-text body `User ID is n`. -/
theorem c1_users_id_in_range (n : Nat) (h : n < 4294967296) (q : String)
    (hs : List (String × String)) (b : Body) :
    handle ⟨.get, ["users", decimalNumeral n], q, hs, b⟩ =
      ⟨200, "User ID is " ++ decimalNumeral n⟩ := by
  have hstep : handle ⟨.get, ["users", decimalNumeral n], q, hs, b⟩ =
      (match parseU32 (decimalNumeral n) with
        | some k => get_user k
        | none => pathErrorResponse) := rfl
  rw [hstep, parseU32_decimalNumeral h]
  rfl

/-- C1 (witness): the amended claim at `n = 42`. -/
theorem c1_users_id_in_range_witness :
    42 < 4294967296 ∧
      handle ⟨.get, ["users", decimalNumeral 42], "", [], .notJson⟩ =
        ⟨200, "User ID is " ++ decimalNumeral 42⟩ :=
  ⟨by decide, c1_users_id_in_range 42 (by decide) "" [] .notJson⟩

/-- C8: for every decimal path segment whose value exceeds 4294967295, a GET
request to `/users/{segment}` is rejected by the `u32` decoding with a
client-error status, never 200. -/
theorem c8_u32_overflow_rejected (n : Nat) (h : 4294967295 < n) (q : String)
    (hs : List (String × String)) (b : Body) :
    handle ⟨.get, ["users", decimalNumeral n], q, hs, b⟩ = pathErrorResponse ∧
      (handle ⟨.get, ["users", decimalNumeral n], q, hs, b⟩).status ≠ 200 := by
  have hstep : handle ⟨.get, ["users", decimalNumeral n], q, hs, b⟩ =
      (match parseU32 (decimalNumeral n) with
        | some k => get_user k
        | none => pathErrorResponse) := rfl
  rw [hstep, parseU32_decimalNumeral_overflow (by omega)]
  exact ⟨rfl, by decide⟩

/-- C8 (witness): the overflow rejection at `n = 4294967296`. -/
theorem c8_u32_overflow_rejected_witness :
    4294967295 < 4294967296 ∧
      (handle ⟨.get, ["users", decimalNumeral 4294967296], "x=1", [], .notJson⟩ =
          pathErrorResponse ∧
        (handle ⟨.get, ["users", decimalNumeral 4294967296], "x=1", [], .notJson⟩).status ≠
          200) :=
  ⟨by decide, c8_u32_overflow_rejected 4294967296 (by decide) "x=1" [] .notJson⟩

/-- C6: for every path segment that is not a nonempty all-digit numeral, a
GET request to `/users/{segment}` is rejected by the decoding layer with a
client-error response and never reaches `get_user`. -/
theorem c6_non_numeric_segment_rejected (seg : String) (h : isNumericSegment seg = false)
    (q : String) (hs : List (String × String)) (b : Body) :
    handle ⟨.get, ["users", seg], q, hs, b⟩ = pathErrorResponse ∧
      (handle ⟨.get, ["users", seg], q, hs, b⟩).status ≠ 200 := by
  have hstep : handle ⟨.get, ["users", seg], q, hs, b⟩ =
      (match parseU32 seg with
        | some k => get_user k
        | none => pathErrorResponse) := rfl
  rw [hstep, parseU32_not_numeric h]
  exact ⟨rfl, by decide⟩

/-- C6 (witness): the rejection at the segment `abc`. -/
theorem c6_non_numeric_segment_rejected_witness :
    isNumericSegment "abc" = false ∧
      (handle ⟨.get, ["users", "abc"], "", [], .notJson⟩ = pathErrorResponse ∧
        (handle ⟨.get, ["users", "abc"], "", [], .notJson⟩).status ≠ 200) :=
  ⟨by decide, c6_non_numeric_segment_rejected "abc" (by decide) "" [] .notJson⟩

/-- C5: every POST to `/users` whose body fails to decode into `Info` (not
JSON, or no string `"name"` field) is answered by the decoding layer with the
client-error response, never 200, without running `post_json`. -/
theorem c5_bad_post_rejected (r : Request) (hm : r.method = .post)
    (hp : r.path = ["users"]) (hd : decodeInfo r.body = none) :
    handle r = jsonErrorResponse ∧ (handle r).status ≠ 200 := by
  obtain ⟨m, p, q, hs, b⟩ := r
  dsimp only at hm hp hd
  subst hm; subst hp
  have hstep : handle ⟨.post, ["users"], q, hs, b⟩ =
      (match decodeInfo b with
        | some i => post_json i
        | none => jsonErrorResponse) := rfl
  rw [hstep, hd]
  exact ⟨rfl, by decide⟩

/-- C5 (witness): a non-JSON POST body to `/users`. -/
theorem c5_bad_post_rejected_witness :
    (Request.mk .post ["users"] "" [] .notJson).method = .post ∧
      (Request.mk .post ["users"] "" [] .notJson).path = ["users"] ∧
      decodeInfo (Request.mk .post ["users"] "" [] .notJson).body = none ∧
      (handle (Request.mk .post ["users"] "" [] .notJson) = jsonErrorResponse ∧
        (handle (Request.mk .post ["users"] "" [] .notJson)).status ≠ 200) :=
  ⟨rfl, rfl, rfl, c5_bad_post_rejected (Request.mk .post ["users"] "" [] .notJson) rfl rfl rfl⟩

/-- C2: for every name `s` whose characters need no JSON escaping, a POST to
`/users` whose body is the JSON object with string field `name` equal to `s`
returns status 200 and the JSON-serialized string `"Received name: s"`,
double quotes included. -/
theorem c2_post_users_echoes_name (s : String)
    (h : ∀ c ∈ s.data, needsJsonEscape c = false)
    (q : String) (hs : List (String × String)) :
    handle ⟨.post, ["users"], q, hs, .json (.obj [("name", .str s)])⟩ =
      ⟨200, "\"Received name: " ++ s ++ "\""⟩ := by
  have hstep : handle ⟨.post, ["users"], q, hs, .json (.obj [("name", .str s)])⟩ =
      (match decodeInfo (.json (.obj [("name", .str s)])) with
        | some i => post_json i
        | none => jsonErrorResponse) := rfl
  have hdec : decodeInfo (.json (.obj [("name", .str s)])) = some ⟨s⟩ := rfl
  rw [hstep, hdec]
  show post_json ⟨s⟩ = _
  have hlit : ∀ c ∈ ("Received name: " : String).data, needsJsonEscape c = false := by
    decide
  have hclean : ∀ c ∈ ("Received name: " ++ s).data, needsJsonEscape c = false := by
    intro c hc
    rw [String.data_append] at hc
    rcases List.mem_append.mp hc with h1 | h2
    · exact hlit c h1
    · exact h c h2
  have hrender : (Json.str ("Received name: " ++ s)).render =
      renderJsonString ("Received name: " ++ s) := by
    simp [Json.render]
  rw [post_json, hrender, renderJsonString_of_clean hclean, ← String.append_assoc]
  rfl

/-- C2 (witness): the echo at the name `Bob`. -/
theorem c2_post_users_echoes_name_witness :
    (∀ c ∈ ("Bob" : String).data, needsJsonEscape c = false) ∧
      handle ⟨.post, ["users"], "", [], .json (.obj [("name", .str "Bob")])⟩ =
        ⟨200, "\"Received name: " ++ "Bob" ++ "\""⟩ :=
  ⟨by decide, c2_post_users_echoes_name "Bob" (by decide) "" []⟩

/-- Exhaustive description of the router's possible responses: one of the
four handler results or one of the three framework rejections. -/
theorem handle_cases (r : Request) :
    handle r = helloResponse ∨ handle r = get_json_data ∨
    (∃ n, n < 4294967296 ∧ handle r = get_user n) ∨
    (∃ i, handle r = post_json i) ∨
    handle r = pathErrorResponse ∨ handle r = jsonErrorResponse ∨
    handle r = noRouteResponse := by
  rw [handle]
  split
  · exact Or.inl rfl
  · exact Or.inr (Or.inl rfl)
  · split
    · rename_i n hp
      exact Or.inr (Or.inr (Or.inl ⟨n, parseU32_lt hp, rfl⟩))
    · exact Or.inr (Or.inr (Or.inr (Or.inr (Or.inl rfl))))
  · split
    · rename_i i hd
      exact Or.inr (Or.inr (Or.inr (Or.inl ⟨i, rfl⟩)))
    · exact Or.inr (Or.inr (Or.inr (Or.inr (Or.inr (Or.inl rfl)))))
  · exact Or.inr (Or.inr (Or.inr (Or.inr (Or.inr (Or.inr rfl)))))

/-- C7: every response with status 200 carries one of the four route bodies:
the greeting text, the fixed JSON object, the id echo for a decoded in-range
id, or the JSON-serialized name echo for a decoded name. -/
theorem c7_success_bodies (r : Request) (h : (handle r).status = 200) :
    (handle r).body = "Hello World!" ∨
    (handle r).body = "\x7b\"name\":\"Good!\",\"age\":\"21\"\x7d" ∨
    (∃ n, n < 4294967296 ∧ (handle r).body = "User ID is " ++ decimalNumeral n) ∨
    (∃ s, (handle r).body = (Json.str ("Received name: " ++ s)).render) := by
  rcases handle_cases r with hc | hc | ⟨n, hn, hc⟩ | ⟨i, hc⟩ | hc | hc | hc
  · exact Or.inl (by rw [hc]; rfl)
  · refine Or.inr (Or.inl ?_)
    rw [hc, get_json_data, Person.toJson]
    simp only [Json.render, Json.renderFields]
    decide
  · exact Or.inr (Or.inr (Or.inl ⟨n, hn, by rw [hc]; rfl⟩))
  · exact Or.inr (Or.inr (Or.inr ⟨i.name, by rw [hc]; rfl⟩))
  · rw [hc] at h
    exact absurd h (by decide)
  · rw [hc] at h
    exact absurd h (by decide)
  · rw [hc] at h
    exact absurd h (by decide)

/-- C7 (witness): the description at a successful GET of `/`. -/
theorem c7_success_bodies_witness :
    (handle ⟨.get, [], "", [], .notJson⟩).status = 200 ∧
      ((handle ⟨.get, [], "", [], .notJson⟩).body = "Hello World!" ∨
        (handle ⟨.get, [], "", [], .notJson⟩).body =
          "\x7b\"name\":\"Good!\",\"age\":\"21\"\x7d" ∨
        (∃ n, n < 4294967296 ∧
          (handle ⟨.get, [], "", [], .notJson⟩).body = "User ID is " ++ decimalNumeral n) ∨
        (∃ s, (handle ⟨.get, [], "", [], .notJson⟩).body =
          (Json.str ("Received name: " ++ s)).render)) :=
  ⟨rfl, c7_success_bodies ⟨.get, [], "", [], .notJson⟩ rfl⟩

/-- Every request whose route and input decode successfully is answered by
the matched handler applied to the decoded input alone. -/
theorem handle_eq_routeResponse (r : Request) (x : RouteInput)
    (h : decodedRoute r = some x) : handle r = routeResponse x := by
  rw [decodedRoute] at h
  rw [handle]
  split at h
  · cases h
    rfl
  · cases h
    rfl
  · split at h
    · cases h
      rfl
    · simp at h
  · split at h
    · cases h
      rfl
    · simp at h
  · simp at h

/-- C9: every handler is deterministic: two requests to the same route with
identical decoded inputs (identical id for `GET /users/{id}`, identical name
for `POST /users`, no input for `GET /` and `GET /users`) receive identical
responses, whatever their raw paths, bodies, queries, and headers. -/
theorem c9_handlers_deterministic (r1 r2 : Request) (x : RouteInput)
    (h1 : decodedRoute r1 = some x) (h2 : decodedRoute r2 = some x) :
    handle r1 = handle r2 :=
  (handle_eq_routeResponse r1 x h1).trans (handle_eq_routeResponse r2 x h2).symm

/-- C9 (witness): the raw segments `7` and `007` decode to the same id, and
the two requests, also differing in query, headers, and body, get the same
response. -/
theorem c9_handlers_deterministic_witness :
    decodedRoute ⟨.get, ["users", "7"], "", [], .notJson⟩ = some (.userById 7) ∧
      decodedRoute ⟨.get, ["users", "007"], "a=1", [("X", "y")], .json .null⟩ =
        some (.userById 7) ∧
      handle ⟨.get, ["users", "7"], "", [], .notJson⟩ =
        handle ⟨.get, ["users", "007"], "a=1", [("X", "y")], .json .null⟩ :=
  ⟨rfl, rfl,
    c9_handlers_deterministic ⟨.get, ["users", "7"], "", [], .notJson⟩
      ⟨.get, ["users", "007"], "a=1", [("X", "y")], .json .null⟩ (.userById 7) rfl rfl⟩

/-- C10: handling a sequence of requests in any order gives each request the
response computed from that request alone: the server state is trivial, so no
request's handling can affect another's response. -/
theorem c10_requests_independent (s : ServerState) (rs : List Request) :
    runServer s rs = rs.map handle := by
  induction rs generalizing s with
  | nil => rfl
  | cons r rest ih => simp [runServer, serverStep, ih]

end RustForNode
